import Mathlib

/-!
Verification of the rust-cn-qbot daily-post bot against its specification.

The Rust sources are shallowly embedded: machine integers become `Nat` with
explicit bounds or wrap-arounds, fallible operations return `Option` or
`Except`, and the mutable `BTreeMap` article cache becomes explicit state
passing over an association list.
-/

set_option maxRecDepth 40000

namespace QBot

/-! ## Date model (src/post.rs)

`DailyPostDate` mirrors the Rust struct with fields `year : u16`,
`month : u8`, `day : u8`; representability bounds appear as theorem
hypotheses. -/

structure DailyPostDate where
  year : Nat
  month : Nat
  day : Nat
deriving DecidableEq

/-- Decimal digit value rendered as a character, as Rust's `Display` for
unsigned integers does. -/
def digChar (d : Nat) : Char := Char.ofNat (48 + d)

/-- Little-endian decimal digit values of `n`, fuel-indexed so that the
definition is structural and kernel-reducible. -/
def decDigitsAux : Nat → Nat → List Nat
  | 0, _ => []
  | fuel + 1, n => if n = 0 then [] else n % 10 :: decDigitsAux fuel (n / 10)

/-- Decimal rendering of a natural number, most significant digit first,
matching Rust's `Display` for unsigned integers. -/
def natDecChars (n : Nat) : List Char :=
  if n = 0 then ['0'] else ((decDigitsAux n n).reverse.map digChar)

/-- Zero padding to width `w`, matching Rust's `{:04}` / `{:02}` format
specifiers. -/
def padZero (w : Nat) (cs : List Char) : List Char :=
  List.replicate (w - cs.length) '0' ++ cs

/-- The `Display` implementation of `DailyPostDate` from src/post.rs:
`write!(f, "{:04}-{:02}-{:02}", year, month, day)`. -/
def dailyPostDateChars (d : DailyPostDate) : List Char :=
  padZero 4 (natDecChars d.year) ++
    '-' :: (padZero 2 (natDecChars d.month) ++ '-' :: padZero 2 (natDecChars d.day))

/-- The canonical textual form as a string. -/
def dateStr (d : DailyPostDate) : String := String.mk (dailyPostDateChars d)

/-- One step of Rust's `str::splitn(3, '-')`: the characters before the
first `'-'`, and, when a `'-'` was found, the remainder after it. -/
def breakDash : List Char → List Char × Option (List Char)
  | [] => ([], none)
  | c :: cs =>
    if c = '-' then ([], some cs)
    else
      let r := breakDash cs
      (c :: r.1, r.2)

/-- Digit value of a character, `none` for non-digits, as in Rust's integer
`FromStr`. -/
def charDigit (c : Char) : Option Nat :=
  if 48 ≤ c.toNat ∧ c.toNat ≤ 57 then some (c.toNat - 48) else none

/-- Accumulating decimal parse of a character list; `none` on the first
non-digit character. -/
def digitsVal : List Char → Nat → Option Nat
  | [], acc => some acc
  | c :: cs, acc =>
    match charDigit c with
    | some d => digitsVal cs (acc * 10 + d)
    | none => none

/-- Rust's `str::parse::<uN>()` for an unsigned type with maximum value
`mx`: an optional leading `'+'`, at least one digit, all digits, and the
value within range (checked arithmetic overflow yields `Err`, which
coincides with the final range test since partial values never exceed the
total value). -/
def parseRustNat (mx : Nat) (cs : List Char) : Option Nat :=
  let cs := if cs.head? = some '+' then cs.tail else cs
  if cs.isEmpty then none
  else
    match digitsVal cs 0 with
    | some v => if v ≤ mx then some v else none
    | none => none

/-- The `FromStr` implementation of `DailyPostDate` from src/post.rs:
`splitn(3, '-')`, then parse year as `u16`, month as `u8`, day as `u8`,
with the source's error strings. -/
def dailyPostDateFromStr (s : List Char) : Except String DailyPostDate :=
  let p1 := breakDash s
  match parseRustNat 65535 p1.1 with
  | none => .error "Invalid year"
  | some year =>
    match p1.2 with
    | none => .error "Missing month"
    | some rest1 =>
      let p2 := breakDash rest1
      match parseRustNat 255 p2.1 with
      | none => .error "Invalid month"
      | some month =>
        match p2.2 with
        | none => .error "Missing day"
        | some rest2 =>
          match parseRustNat 255 rest2 with
          | none => .error "Invalid day"
          | some day => .ok ⟨year, month, day⟩

/-! ## Article model

src/post.rs (lines 54-57) declares `DailyPost` with the single field
`content_html`, while src/crawler.rs (`fetch_post`, lines 169-177), both
controller commands and every unit test construct and consume a six-field
record `\x7b href, content_html, title, author, publish_time, date \x7d`.
Both shapes are embedded: `DailyPostDecl` is the declaration of src/post.rs,
`DailyPost` is the record the crawler builds and the controller uses. -/

/-- The `DailyPost` struct as declared at src/post.rs lines 54-57: a single
field `content_html`. -/
structure DailyPostDecl where
  content_html : String
deriving DecidableEq

/-- The article record constructed by `CrawlerImpl::fetch_post`
(src/crawler.rs lines 169-177) and consumed by the controller and the unit
tests: six fields. -/
structure DailyPost where
  href : String
  content_html : String
  title : String
  author : String
  publish_time : String
  date : DailyPostDate
deriving DecidableEq

/-! ## Article cache (src/controller.rs)

`ControllerImpl.posts` is a `Mutex<BTreeMap<DailyPostDate, DailyPost>>`.
The map is embedded as an association list with unique keys; `insert`
returns the previous value like `BTreeMap::insert`, `remove` deletes the
key, `len` is the entry count. -/

/-- The article cache: association list standing for the
`BTreeMap<DailyPostDate, DailyPost>`. -/
abbrev Cache := List (DailyPostDate × DailyPost)

/-- Rust `BTreeMap::get`, as association-list lookup. -/
def cacheGet (k : DailyPostDate) : Cache → Option DailyPost
  | [] => none
  | p :: t => if p.1 = k then some p.2 else cacheGet k t

/-- Rust `BTreeMap::insert`: replaces the value when the key is present and
returns the old value, otherwise adds the entry and returns `none`. -/
def cacheInsert (k : DailyPostDate) (v : DailyPost) (c : Cache) :
    Cache × Option DailyPost :=
  match cacheGet k c with
  | some old => (c.map fun p => if p.1 = k then (k, v) else p, some old)
  | none => (c ++ [(k, v)], none)

/-- Rust `BTreeMap::remove` (the returned value is unused by the source). -/
def cacheRemove (k : DailyPostDate) : Cache → Cache
  | [] => []
  | p :: t => if p.1 = k then cacheRemove k t else p :: cacheRemove k t

/-- Modelled from the spec: `sanitize_message` of src/controller/sanitizer.rs
(the file is absent from the sources; only its callers are present).
Sanitization for reply text replaces each `.` with `-`. -/
def sanitize_message (s : String) : String :=
  String.mk (s.data.map fun c => if c = '.' then '-' else c)

/-- The cache mutation and reply of the scrape command `ControllerImpl::爬取`
(src/controller/爬取.rs lines 19-44), starting after the crawler returned
`post`: clear the cache when its size strictly exceeds 20, then insert the
article keyed by its date, then format the reply. -/
def scrapeStep (post : DailyPost) (posts : Cache) : Cache × String :=
  let gc := if posts.length > 20 then (([] : Cache), "清理完成，")
            else (posts, "")
  let ins := cacheInsert post.date post gc.1
  match ins.2 with
  | some _ =>
    (ins.1, gc.2 ++ "重新爬取成功: " ++ dateStr post.date ++ " - " ++
      sanitize_message post.title)
  | none =>
    (ins.1, gc.2 ++ "爬取成功: " ++ dateStr post.date ++ " - " ++
      sanitize_message post.title)

/-- The cache mutation and reply of the publish command `ControllerImpl::发送`
(src/controller/发送.rs lines 77-114). The outcomes of the two external
effects are parameters: `procRes` is the result of `process_html` on the
article's content, `apiRes` the result of
`api_client.send_channel_thread_html`. On API success the date is removed
from the cache; on failure the cache is untouched. -/
def publishStep (apiRes : Except String Unit) (procRes : Except String String)
    (date : DailyPostDate) (posts : Cache) : Cache × String :=
  match cacheGet date posts with
  | none => (posts, "没有找到 " ++ dateStr date ++ " 的日报")
  | some post =>
    let processError :=
      match procRes with
      | .ok _ => ""
      | .error e => " （HTML 处理失败:" ++ e ++ "）"
    match apiRes with
    | .ok _ =>
      (cacheRemove date posts,
        "发送成功: " ++ dateStr post.date ++ " - " ++
          sanitize_message post.title ++ processError)
    | .error e => (posts, "发送失败: " ++ sanitize_message e)

/-- A sample article used by concrete witnesses and counterexamples. -/
def samplePost (d : DailyPostDate) : DailyPost :=
  ⟨"/article", "<p>test</p>", "Title", "author", "2024-04-11 12:00", d⟩

/-- A cache holding exactly 20 articles with distinct January dates. -/
def cache20 : Cache :=
  (List.range 20).map fun i => (⟨2024, 1, i + 1⟩, samplePost ⟨2024, 1, i + 1⟩)

/-- A cache holding 25 articles with distinct January dates, as in the
`test_爬取_gc_triggered` unit test. -/
def cache25 : Cache :=
  (List.range 25).map fun i => (⟨2024, 1, i + 1⟩, samplePost ⟨2024, 1, i + 1⟩)

/-! ## Caching authorizer (src/qbot/authorizer.rs)

`QBotCachingAuthorizerImpl` stores `(Instant, GetAccessTokenResponse)`.
Time is embedded as whole seconds (`Nat`); `Instant::duration_since`
saturates at zero, matching `Nat` subtraction, and `Duration::as_secs`
truncates, which the whole-second embedding absorbs. The unsigned
64-bit subtraction `expires_in - 60` is embedded as a checked
subtraction whose `none` case models the overflow panic. -/

/-- The token response `\x7b access_token, expires_in \x7d`. -/
structure GetAccessTokenResponse where
  access_token : String
  expires_in : Nat
deriving DecidableEq

/-- Checked unsigned 64-bit subtraction: `none` models the overflow panic of
`u64` subtraction when the subtrahend exceeds the minuend. -/
def u64CheckedSub (a b : Nat) : Option Nat :=
  if b ≤ a then some (a - b) else none

/-- Observable outcome of one freshness check inside
`QBotCachingAuthorizerImpl::get_access_token` (src/qbot/authorizer.rs lines
81-97). -/
inductive TokenStepOutcome
  | returnToken (token : String)
  | refreshRequest
  | arithmeticPanic
deriving DecidableEq

/-- One iteration of the `get_access_token` loop: with the stored issue
time `lastRequestedAt` and stored response `resp`, at current time `now`,
either return the cached token (when
`now.duration_since(last).as_secs() < expires_in - 60`), or issue a
refresh request to the platform; the checked subtraction's failure
surfaces as `arithmeticPanic`. -/
def getAccessTokenStep (lastRequestedAt : Nat) (resp : GetAccessTokenResponse)
    (now : Nat) : TokenStepOutcome :=
  match u64CheckedSub resp.expires_in 60 with
  | none => .arithmeticPanic
  | some thresh =>
    if now - lastRequestedAt < thresh then .returnToken resp.access_token
    else .refreshRequest

/-! ## Run-loop error taxonomy (src/qbot/error.rs)

`QBotEventError` and its classification predicates `is_ignoreable`,
`is_resumable`, `is_reidentifiable`, `is_invalid_session` and
`is_recoverable` (src/qbot/error.rs lines 49-81). The embedded
`tungstenite` error type keeps the one protocol variant the source
matches on (`ResetWithoutClosingHandshake`) and collapses the variants the
source never distinguishes into tagged constructors. -/

/-- Rust `tungstenite::error::ProtocolError`: the reset-without-close variant the
source matches on, and a tag for every other variant. -/
inductive ProtocolErr
  | resetWithoutClosingHandshake
  | otherProtocol (tag : Nat)
deriving DecidableEq

/-- Rust `tungstenite::Error`: the `Protocol` variant the source matches on, and
a tag for every other variant (Io, Tls, Capacity, Utf8, ...). -/
inductive WsErr
  | protocol (p : ProtocolErr)
  | otherWs (tag : Nat)
deriving DecidableEq

/-- Rust `QBotApiError` (src/qbot/error.rs lines 8-19): a transport-level request
error or a platform API error `\x7b status_code, code, message, trace_id \x7d`. -/
inductive QBotApiErr
  | requestError (tag : Nat)
  | apiError (status_code : Nat) (code : Nat) (message : String) (trace_id : String)
deriving DecidableEq

/-- Rust `QBotEventError` (src/qbot/error.rs lines 31-45). -/
inductive QBotEventErr
  | wsError (e : WsErr)
  | webhookServeError (tag : Nat)
  | unexpectedData (s : String)
  | invalidJson (reason : String)
  | accessTokenError (e : QBotApiErr)
  | returnCodeError (code : Nat)
deriving DecidableEq

/-- Rust `QBotEventError::is_ignoreable`: `matches!(self, InvalidJson(_))`. -/
def is_ignoreable : QBotEventErr → Bool
  | .invalidJson _ => true
  | _ => false

/-- Rust `QBotEventError::is_resumable`:
`matches!(self, ReturnCodeError(4008 | 4009) | WsError(Protocol(ResetWithoutClosingHandshake)))`. -/
def is_resumable : QBotEventErr → Bool
  | .returnCodeError c => decide (c = 4008 ∨ c = 4009)
  | .wsError (.protocol .resetWithoutClosingHandshake) => true
  | _ => false

/-- Rust `QBotEventError::is_reidentifiable`:
`is_resumable() || matches!(self, ReturnCodeError(7 | 4006..=4009 | 4900..=4913))`. -/
def is_reidentifiable (e : QBotEventErr) : Bool :=
  is_resumable e ||
    match e with
    | .returnCodeError c =>
      decide (c = 7 ∨ (4006 ≤ c ∧ c ≤ 4009) ∨ (4900 ≤ c ∧ c ≤ 4913))
    | _ => false

/-- Rust `QBotEventError::is_invalid_session`: `matches!(self, ReturnCodeError(9))`. -/
def is_invalid_session : QBotEventErr → Bool
  | .returnCodeError c => decide (c = 9)
  | _ => false

/-- Rust `QBotEventError::is_recoverable`: return codes are recoverable when
re-identifiable or invalid-session; an `AccessTokenError` wrapping a
platform `ApiError` is not recoverable; everything else is. -/
def is_recoverable (e : QBotEventErr) : Bool :=
  match e with
  | .returnCodeError _ => is_reidentifiable e || is_invalid_session e
  | .accessTokenError (.apiError _ _ _ _) => false
  | _ => true

/-! ## Webhook challenge (src/qbot/event/webhook/challenge.rs)

`ChallengeGenerator::new` expands the shared secret cyclically into a
32-byte Ed25519 seed with `fill_repeating_bytes`;
`calculate_challenge_response` signs the material and lowercase
hex-encodes the 64-byte signature. The `while` loop of
`fill_repeating_bytes` is embedded fuel-indexed (`none` = the loop did not
terminate within the fuel). Bytes are `Nat` values below 256. -/

/-- The loop of `fill_repeating_bytes(key_bytes, secret)`
(src/qbot/event/webhook/challenge.rs lines 26-32): while the unfilled
remainder is nonempty, copy `min(remaining, secret.len())` bytes of the
secret and advance. Fuel-indexed; `none` models nontermination. -/
def fill_repeating_bytes (secret : List Nat) : Nat → Nat → Option (List Nat)
  | 0, remaining => if remaining = 0 then some [] else none
  | fuel + 1, remaining =>
    if remaining = 0 then some []
    else
      let len := min remaining secret.length
      match fill_repeating_bytes secret fuel (remaining - len) with
      | some rest => some (secret.take len ++ rest)
      | none => none

/-- The 32-byte signing-key seed built by `ChallengeGenerator::new`
(`SECRET_KEY_LENGTH = 32`); the fuel 32 is ample since every iteration
fills at least one byte. -/
def challengeGeneratorKey (secret : List Nat) : Option (List Nat) :=
  fill_repeating_bytes secret 32 32

/-! ### SHA-512 and Ed25519

Modelled from the spec: the challenge derivation (spec §4.4) forms the
Ed25519 signing key from the 32-byte seed, signs the UTF-8 bytes of
`event_ts || plain_token`, and lowercase hex-encodes the 64-byte
signature. The signing primitive itself lives in the external
`ed25519_dalek` crate, embedded here as RFC 8032 Ed25519 over a pure-`Nat`
SHA-512 (FIPS 180-4). -/

/-- Truncation to a 64-bit word. -/
def w64 (n : Nat) : Nat := n % (2 ^ 64)

/-- Right rotation of a 64-bit word. -/
def rotr64 (x n : Nat) : Nat := w64 ((x >>> n) ||| (x <<< (64 - n)))

/-- Bitwise complement of a 64-bit word. -/
def not64 (x : Nat) : Nat := x ^^^ (2 ^ 64 - 1)

/-- SHA-512 `Ch`. -/
def ch64 (x y z : Nat) : Nat := (x &&& y) ^^^ (not64 x &&& z)

/-- SHA-512 `Maj`. -/
def maj64 (x y z : Nat) : Nat := (x &&& y) ^^^ (x &&& z) ^^^ (y &&& z)

/-- SHA-512 `Σ0`. -/
def bigS0 (x : Nat) : Nat := rotr64 x 28 ^^^ rotr64 x 34 ^^^ rotr64 x 39

/-- SHA-512 `Σ1`. -/
def bigS1 (x : Nat) : Nat := rotr64 x 14 ^^^ rotr64 x 18 ^^^ rotr64 x 41

/-- SHA-512 `σ0`. -/
def smallS0 (x : Nat) : Nat := rotr64 x 1 ^^^ rotr64 x 8 ^^^ (x >>> 7)

/-- SHA-512 `σ1`. -/
def smallS1 (x : Nat) : Nat := rotr64 x 19 ^^^ rotr64 x 61 ^^^ (x >>> 6)

/-- SHA-512 initial hash values (FIPS 180-4 §5.3.5), in decimal. -/
def sha512IV : List Nat :=
  [7640891576956012808, 13503953896175478587, 4354685564936845355,
   11912009170470909681, 5840696475078001361, 11170449401992604703,
   2270897969802886507, 6620516959819538809]

/-- SHA-512 round constants (FIPS 180-4 §4.2.3), in decimal. -/
def sha512K : List Nat :=
  [4794697086780616226, 8158064640168781261, 13096744586834688815,
   16840607885511220156, 4131703408338449720, 6480981068601479193,
   10538285296894168987, 12329834152419229976, 15566598209576043074,
   1334009975649890238, 2608012711638119052, 6128411473006802146,
   8268148722764581231, 9286055187155687089, 11230858885718282805,
   13951009754708518548, 16472876342353939154, 17275323862435702243,
   1135362057144423861, 2597628984639134821, 3308224258029322869,
   5365058923640841347, 6679025012923562964, 8573033837759648693,
   10970295158949994411, 12119686244451234320, 12683024718118986047,
   13788192230050041572, 14330467153632333762, 15395433587784984357,
   489312712824947311, 1452737877330783856, 2861767655752347644,
   3322285676063803686, 5560940570517711597, 5996557281743188959,
   7280758554555802590, 8532644243296465576, 9350256976987008742,
   10552545826968843579, 11727347734174303076, 12113106623233404929,
   14000437183269869457, 14369950271660146224, 15101387698204529176,
   15463397548674623760, 17586052441742319658, 1182934255886127544,
   1847814050463011016, 2177327727835720531, 2830643537854262169,
   3796741975233480872, 4115178125766777443, 5681478168544905931,
   6601373596472566643, 7507060721942968483, 8399075790359081724,
   8693463985226723168, 9568029438360202098, 10144078919501101548,
   10430055236837252648, 11840083180663258601, 13761210420658862357,
   14299343276471374635, 14566680578165727644, 15097957966210449927,
   16922976911328602910, 17689382322260857208, 500013540394364858,
   748580250866718886, 1242879168328830382, 1977374033974150939,
   2944078676154940804, 3659926193048069267, 4368137639120453308,
   4836135668995329356, 5532061633213252278, 6448918945643986474,
   6902733635092675308, 7801388544844847127]

/-- Big-endian 8-byte groups to 64-bit words. -/
def bytesToWordsBE : List Nat → List Nat
  | b0 :: b1 :: b2 :: b3 :: b4 :: b5 :: b6 :: b7 :: rest =>
    (((((((b0 * 256 + b1) * 256 + b2) * 256 + b3) * 256 + b4) * 256 + b5) *
        256 + b6) * 256 + b7) :: bytesToWordsBE rest
  | _ => []

/-- Message-schedule extension by `k` further words. -/
def extendW (w : List Nat) : Nat → List Nat
  | 0 => w
  | k + 1 =>
    let prev := extendW w k
    let n := prev.length
    prev ++ [w64 (smallS1 (prev.getD (n - 2) 0) + prev.getD (n - 7) 0 +
      smallS0 (prev.getD (n - 15) 0) + prev.getD (n - 16) 0)]

/-- One SHA-512 round on the state `[a,b,c,d,e,f,g,h]`. -/
def sha512Round (s : List Nat) (kw : Nat × Nat) : List Nat :=
  match s with
  | [a, b, c, d, e, f, g, h] =>
    let t1 := w64 (h + bigS1 e + ch64 e f g + kw.1 + kw.2)
    let t2 := w64 (bigS0 a + maj64 a b c)
    [w64 (t1 + t2), a, b, c, w64 (d + t1), e, f, g]
  | other => other

/-- SHA-512 compression of one 128-byte block. -/
def compress512 (st : List Nat) (block : List Nat) : List Nat :=
  let w := extendW (bytesToWordsBE block) 64
  let out := (sha512K.zip w).foldl sha512Round st
  (st.zip out).map fun p => w64 (p.1 + p.2)

/-- Big-endian byte serialization of `n` to `w` bytes. -/
def beBytes (w n : Nat) : List Nat :=
  (List.range w).map fun i => n / 256 ^ (w - 1 - i) % 256

/-- SHA-512 padding: `0x80`, zeros, and the 128-bit big-endian bit length. -/
def pad512 (msg : List Nat) : List Nat :=
  msg ++ 128 :: List.replicate ((112 + 128 - (msg.length + 1) % 128) % 128) 0 ++
    beBytes 16 (8 * msg.length)

/-- Split into 128-byte blocks (fuel-indexed, structural). -/
def chunks128 : Nat → List Nat → List (List Nat)
  | 0, _ => []
  | fuel + 1, l => if l.isEmpty then [] else l.take 128 :: chunks128 fuel (l.drop 128)

/-- SHA-512 of a byte string (64-byte digest). -/
def sha512 (msg : List Nat) : List Nat :=
  let padded := pad512 msg
  let st := (chunks128 padded.length padded).foldl compress512 sha512IV
  (st.map (beBytes 8)).flatten

/-- The Ed25519 field prime `2^255 - 19`. -/
def pEd : Nat := 2 ^ 255 - 19

/-- The Ed25519 group order `2^252 + 27742317777372353535851937790883648493`. -/
def lEd : Nat := 2 ^ 252 + 27742317777372353535851937790883648493

/-- The twisted-Edwards curve constant `d = -121665/121666 mod p`. -/
def dEd : Nat :=
  37095705934669439343138083508754565189542113879843219016388785533085940283555

/-- A curve point in extended homogeneous coordinates `(X : Y : Z : T)`,
all residues below `pEd`. -/
structure EPoint where
  x : Nat
  y : Nat
  z : Nat
  t : Nat
deriving DecidableEq

/-- Unified twisted-Edwards point addition (RFC 8032 §5.1.4, add-2008-hwcd-3;
strongly unified, so it also doubles). -/
def ptAdd (p q : EPoint) : EPoint :=
  let a := (p.y + pEd - p.x) * (q.y + pEd - q.x) % pEd
  let b := (p.y + p.x) * (q.y + q.x) % pEd
  let c := p.t * q.t % pEd * dEd % pEd * 2 % pEd
  let dd := p.z * q.z % pEd * 2 % pEd
  let e := (b + pEd - a) % pEd
  let f := (dd + pEd - c) % pEd
  let g := (dd + c) % pEd
  let h := (b + a) % pEd
  ⟨e * f % pEd, g * h % pEd, f * g % pEd, e * h % pEd⟩

/-- The neutral element. -/
def idPoint : EPoint := ⟨0, 1, 1, 0⟩

/-- The Ed25519 base point `B = (x(4/5), 4/5)`. -/
def basePt : EPoint :=
  ⟨15112221349535400772501151409588531511454012693041857206046113283949847762202,
   46316835694926478169428394003475163141307993866256225615783033603165251855960,
   1,
   15112221349535400772501151409588531511454012693041857206046113283949847762202 *
     46316835694926478169428394003475163141307993866256225615783033603165251855960 % pEd⟩

/-- Modular exponentiation by squaring, fuel-indexed (structural, so the
kernel can reduce it). -/
def powModFuel : Nat → Nat → Nat → Nat → Nat
  | 0, _, _, m => 1 % m
  | fuel + 1, b, e, m =>
    if e = 0 then 1 % m
    else
      let r := powModFuel fuel (b * b % m) (e / 2) m
      if e % 2 = 1 then r * b % m else r

/-- Double-and-add scalar multiplication, least-significant bit first. -/
def scalarMulAux : Nat → Nat → EPoint → EPoint → EPoint
  | 0, _, _, acc => acc
  | fuel + 1, e, p, acc =>
    if e = 0 then acc
    else scalarMulAux fuel (e / 2) (ptAdd p p) (if e % 2 = 1 then ptAdd acc p else acc)

/-- Scalar multiplication (fuel 300 covers every scalar below `2^300`). -/
def scalarMul (e : Nat) (p : EPoint) : EPoint := scalarMulAux 300 e p idPoint

/-- Little-endian interpretation of a byte string. -/
def leNat : List Nat → Nat
  | [] => 0
  | b :: t => b + 256 * leNat t

/-- Little-endian serialization of `n` to `w` bytes. -/
def leBytes (w n : Nat) : List Nat := (List.range w).map fun i => n / 256 ^ i % 256

/-- Point compression: 32 little-endian bytes of `y` with the parity of `x`
in the top bit. -/
def encodePoint (p : EPoint) : List Nat :=
  let zinv := powModFuel 300 p.z (pEd - 2) pEd
  let px := p.x * zinv % pEd
  let py := p.y * zinv % pEd
  leBytes 32 (py + px % 2 * 2 ^ 255)

/-- Ed25519 scalar clamping: clear bits 0-2 and 255, set bit 254. -/
def clampEd (n : Nat) : Nat := n % 2 ^ 254 - n % 8 + 2 ^ 254

/-- RFC 8032 Ed25519 signing of `msg` under the 32-byte `seed`
(`ed25519_dalek::SigningKey::from_bytes(seed).sign(msg)`): the signature is
`R || S` with `R = rB`, `r = SHA512(prefix ‖ msg) mod L`,
`S = (r + SHA512(R ‖ A ‖ msg)·a) mod L`. -/
def ed25519Sign (seed msg : List Nat) : List Nat :=
  let h := sha512 seed
  let a := clampEd (leNat (h.take 32))
  let hpre := h.drop 32
  let aEnc := encodePoint (scalarMul a basePt)
  let r := leNat (sha512 (hpre ++ msg)) % lEd
  let rEnc := encodePoint (scalarMul r basePt)
  let k := leNat (sha512 (rEnc ++ aEnc ++ msg)) % lEd
  let s := (r + k * a) % lEd
  rEnc ++ leBytes 32 s

/-- Lowercase hexadecimal digit. -/
def hexChar (d : Nat) : Char :=
  if d < 10 then Char.ofNat (48 + d) else Char.ofNat (87 + d)

/-- Lowercase hex encoding (`hex::encode_to_slice` into a string of twice
the signature length). -/
def hexEncode (bs : List Nat) : String :=
  String.mk ((bs.map fun b => [hexChar (b / 16), hexChar (b % 16)]).flatten)

/-- UTF-8 encoding of one character. -/
def utf8EncodeChar (c : Char) : List Nat :=
  let n := c.toNat
  if n < 128 then [n]
  else if n < 2048 then [192 + n / 64, 128 + n % 64]
  else if n < 65536 then [224 + n / 4096, 128 + n / 64 % 64, 128 + n % 64]
  else [240 + n / 262144, 128 + n / 4096 % 64, 128 + n / 64 % 64, 128 + n % 64]

/-- UTF-8 bytes of a string (`str::as_bytes`). -/
def strBytes (s : String) : List Nat := (s.data.map utf8EncodeChar).flatten

/-- Rust `ChallengeGenerator::calculate_challenge_response`
(src/qbot/event/webhook/challenge.rs lines 17-23) for the generator built
from `secret`: sign the plain material with the cyclically-expanded seed
and lowercase hex-encode; `none` when seed construction diverges. -/
def calculate_challenge_response (secret material : List Nat) : Option String :=
  (challengeGeneratorKey secret).map fun seed => hexEncode (ed25519Sign seed material)

/-! ## Webhook service (src/qbot/event/webhook/service.rs, src/qbot/event.rs)

An inbound HTTP body is embedded through the outcomes of the serde_json
parses the service can run on it; the service itself holds the already
constructed challenge-generator seed. -/

/-- Rust `QBotEventAnyPayload` (src/qbot/event/payload.rs lines 7-15): the
transparent `op : u8` opcode with optional `s` and `t` fields. -/
structure QBotEventAnyPayload where
  opcode : Nat
  seq : Option Int
  event_type : Option String
deriving DecidableEq

/-- Rust `WebhookChallengePayload` (src/qbot/event/payload.rs lines 127-131). -/
structure WebhookChallengePayload where
  plain_token : String
  event_ts : String
deriving DecidableEq

/-- An inbound webhook body, embedded by the outcomes of the serde_json
parses the service may run on it: `anyParse` for `deserialize_any_op`,
`challengeParse` for the typed challenge-envelope parse, `dispatchParse`
for the typed dispatch-payload parse inside `handle_dispatch_event`; each
`.error` carries the serde reason string. -/
structure WebhookBody where
  anyParse : Except String QBotEventAnyPayload
  challengeParse : Except String WebhookChallengePayload
  dispatchParse : Except String Unit

/-- Rust `deserialize_any_op` (src/qbot/event.rs lines 14-31): a serde failure
becomes `QBotEventErr.invalidJson` via `err.into()`. -/
def deserialize_any_op (b : WebhookBody) :
    Except QBotEventErr QBotEventAnyPayload :=
  match b.anyParse with
  | .ok p => .ok p
  | .error e => .error (.invalidJson e)

/-- Rust `handle_dispatch_event` (src/qbot/event.rs lines 33-68): `RESUMED`,
`PUBLIC_MESSAGE_DELETE` and unknown event types succeed without a typed
parse; `AT_MESSAGE_CREATE` and `DIRECT_MESSAGE_CREATE` re-parse the body
and propagate a serde failure as `invalidJson`. -/
def handle_dispatch_event (event_type : String) (b : WebhookBody) :
    Except QBotEventErr Unit :=
  if event_type = "RESUMED" then .ok ()
  else if event_type = "AT_MESSAGE_CREATE" then
    match b.dispatchParse with
    | .ok _ => .ok ()
    | .error e => .error (.invalidJson e)
  else if event_type = "DIRECT_MESSAGE_CREATE" then
    match b.dispatchParse with
    | .ok _ => .ok ()
    | .error e => .error (.invalidJson e)
  else if event_type = "PUBLIC_MESSAGE_DELETE" then .ok ()
  else .ok ()

/-- serde_json string escaping of one character. -/
def jsonEscapeChar (c : Char) : List Char :=
  if c = '"' then ['\\', '"']
  else if c = '\\' then ['\\', '\\']
  else if c = '\x08' then ['\\', 'b']
  else if c = '\x0c' then ['\\', 'f']
  else if c = '\n' then ['\\', 'n']
  else if c = '\r' then ['\\', 'r']
  else if c = '\t' then ['\\', 't']
  else if c.toNat < 32 then
    ['\\', 'u', '0', '0', hexChar (c.toNat / 16), hexChar (c.toNat % 16)]
  else [c]

/-- serde_json serialization of a string. -/
def jsonString (s : String) : List Char :=
  '"' :: (s.data.map jsonEscapeChar).flatten ++ ['"']

/-- serde_json serialization of `ErrorResponse \x7b error \x7d`
(src/qbot/event/webhook/service.rs lines 18-21). -/
def errorResponseJson (e : String) : String :=
  String.mk ('\x7b' :: "\"error\":".data ++ jsonString e ++ ['\x7d'])

/-- serde_json serialization of `WebhookChallengeResponsePayload
\x7b plain_token, signature \x7d` (src/qbot/event/payload.rs lines
133-137), fields in declaration order. -/
def challengeResponseJson (plain_token signature : String) : String :=
  String.mk ('\x7b' :: "\"plain_token\":".data ++ jsonString plain_token ++
    ',' :: "\"signature\":".data ++ jsonString signature ++ ['\x7d'])

/-- An HTTP response: status code, body, optional `content-type` header. -/
structure HttpResponse where
  status : Nat
  body : String
  contentType : Option String
deriving DecidableEq

/-- Rust `QBotWebhookService::handle_request_body`
(src/qbot/event/webhook/service.rs lines 30-63), for a service whose
challenge generator was built from the 32-byte `seed`: `OP_DISPATCH (0)`
runs the dispatch handler and returns `\x7b\x7d`;
`OP_HTTP_CALLBACK_CHALLENGE (13)` parses the challenge payload and answers
with the signed challenge; any other opcode is
`UnexpectedData("Unknown opcode")`. -/
def handle_request_body (seed : List Nat) (b : WebhookBody) :
    Except QBotEventErr String :=
  match deserialize_any_op b with
  | .error e => .error e
  | .ok payload =>
    if payload.opcode = 0 then
      match handle_dispatch_event (payload.event_type.getD "") b with
      | .error e => .error e
      | .ok _ => .ok (String.mk ['\x7b', '\x7d'])
    else if payload.opcode = 13 then
      match b.challengeParse with
      | .error e => .error (.invalidJson e)
      | .ok ch =>
        .ok (challengeResponseJson ch.plain_token
          (hexEncode (ed25519Sign seed (strBytes (ch.event_ts ++ ch.plain_token)))))
    else .error (.unexpectedData "Unknown opcode")

/-- Rust `QBotWebhookService::call` (src/qbot/event/webhook/service.rs lines
65-125): a declared content length above 64 KiB is rejected with 413
before the body is read (and before the `content-type` header is set); an
`Ok` body is answered 200; an `UnexpectedData` error 400 with
`\x7b error: <reason> \x7d`; every other error — including `InvalidJson`
from malformed request JSON — 500 with
`\x7b error: "Internal server error" \x7d`; all non-413 responses carry
`content-type: application/json; charset=utf-8`. -/
def webhookCall (seed : List Nat) (contentLengthUpper : Nat)
    (b : WebhookBody) : HttpResponse :=
  if contentLengthUpper > 1024 * 64 then
    ⟨413, errorResponseJson "Request body too large", none⟩
  else
    let res :=
      match handle_request_body seed b with
      | .ok body => HttpResponse.mk 200 body none
      | .error (.unexpectedData e) => ⟨400, errorResponseJson e, none⟩
      | .error _ => ⟨500, errorResponseJson "Internal server error", none⟩
    { res with contentType := some "application/json; charset=utf-8" }

/-- A body that is not valid JSON for the event envelope: every parse
fails with the serde reason for non-JSON input. -/
def badJsonBody : WebhookBody :=
  ⟨.error "expected value at line 1 column 1",
    .error "expected value at line 1 column 1",
    .error "expected value at line 1 column 1"⟩

/-! ## Cache lemmas -/

theorem cacheInsert_fst_length (k : DailyPostDate) (v : DailyPost) (c : Cache) :
    (cacheInsert k v c).1.length ≤ c.length + 1 := by
  unfold cacheInsert
  cases h : cacheGet k c <;> simp

theorem cacheInsert_nil_length (k : DailyPostDate) (v : DailyPost) :
    (cacheInsert k v ([] : Cache)).1.length = 1 := rfl

theorem cacheGet_remove_self (k : DailyPostDate) (c : Cache) :
    cacheGet k (cacheRemove k c) = none := by
  induction c with
  | nil => rfl
  | cons p t ih =>
    by_cases h : p.1 = k
    · simpa [cacheRemove, h] using ih
    · simpa [cacheRemove, cacheGet, h] using ih

theorem cacheGet_remove_other (d k : DailyPostDate) (c : Cache) (hne : d ≠ k) :
    cacheGet d (cacheRemove k c) = cacheGet d c := by
  induction c with
  | nil => rfl
  | cons p t ih =>
    by_cases h : p.1 = k
    · simpa [cacheRemove, cacheGet, h, hne.symm] using ih
    · by_cases hpd : p.1 = d
      · simp [cacheRemove, cacheGet, h, hpd, hne]
      · simpa [cacheRemove, cacheGet, h, hpd, hne] using ih

/-- C1 (counterexample): starting from a prior cache of exactly 20 distinct
dates — a state at which the scrape command performs no eviction because
20 does not strictly exceed 20 — inserting an article with a fresh date
yields a cache of 21 entries, so the post-insertion size does exceed the
capacity threshold of 20. -/
theorem c1_counterexample :
    ¬ (scrapeStep (samplePost ⟨2024, 4, 11⟩) cache20).1.length ≤ 20 := by
  decide

/-- C1 (amended): for every insertion performed by the scrape command the
post-insertion cache size is at most 21, and whenever the prior size
strictly exceeds 20 the cache is cleared first, so the new article is the
sole entry. -/
theorem c1_scrape_cache_size_bound (post : DailyPost) (posts : Cache) :
    (scrapeStep post posts).1.length ≤ 21 ∧
      (posts.length > 20 → (scrapeStep post posts).1.length = 1) := by
  constructor
  · unfold scrapeStep
    by_cases h : posts.length > 20
    · simp only [h, if_pos, if_true]
      cases hins : (cacheInsert post.date post ([] : Cache)).2 <;> simp_all [cacheInsert, cacheGet]
    · have hle : posts.length ≤ 20 := Nat.not_lt.mp h
      have hbound := cacheInsert_fst_length post.date post posts
      simp only [h, if_neg, if_false]
      cases hins : (cacheInsert post.date post posts).2 <;> simp <;> omega
  · intro h
    unfold scrapeStep
    simp only [h, if_pos, if_true]
    cases hins : (cacheInsert post.date post ([] : Cache)).2 <;> simp_all [cacheInsert, cacheGet]

/-- C1 (witness): instantiating the amended bound at the 25-entry cache of
the repository's GC unit test: the prior size exceeds 20 and the
post-insertion size is 1. -/
theorem c1_witness :
    cache25.length > 20 ∧
      (scrapeStep (samplePost ⟨2024, 4, 11⟩) cache25).1.length = 1 :=
  ⟨by decide,
    (c1_scrape_cache_size_bound (samplePost ⟨2024, 4, 11⟩) cache25).2 (by decide)⟩

/-- C2: for every publish command on a date present in the cache, a
successful thread-publish API call removes exactly that date (its lookup
becomes `none`, all other lookups are unchanged), and a failed API call
leaves the cache entirely unchanged. -/
theorem c2_publish_cache_semantics (apiRes : Except String Unit)
    (procRes : Except String String) (date : DailyPostDate) (posts : Cache)
    (post : DailyPost) (hmem : cacheGet date posts = some post) :
    (∀ u, apiRes = .ok u →
        cacheGet date (publishStep apiRes procRes date posts).1 = none ∧
          ∀ d, d ≠ date →
            cacheGet d (publishStep apiRes procRes date posts).1 =
              cacheGet d posts) ∧
      ∀ e, apiRes = .error e → (publishStep apiRes procRes date posts).1 = posts := by
  constructor
  · rintro u rfl
    constructor
    · simp [publishStep, hmem, cacheGet_remove_self]
    · intro d hd
      simp [publishStep, hmem, cacheGet_remove_other d date posts hd]
  · rintro e rfl
    simp [publishStep, hmem]

/-- C2 (witness): on the one-entry cache holding the 2024-04-11 article, a
successful publish removes that date and a failed publish leaves the cache
unchanged. -/
theorem c2_witness :
    cacheGet ⟨2024, 4, 11⟩
        (publishStep (.ok ()) (.ok "") ⟨2024, 4, 11⟩
          [(⟨2024, 4, 11⟩, samplePost ⟨2024, 4, 11⟩)]).1 = none ∧
      (publishStep (.error "HTTP 500") (.ok "") ⟨2024, 4, 11⟩
          [(⟨2024, 4, 11⟩, samplePost ⟨2024, 4, 11⟩)]).1 =
        [(⟨2024, 4, 11⟩, samplePost ⟨2024, 4, 11⟩)] :=
  ⟨((c2_publish_cache_semantics (.ok ()) (.ok "") ⟨2024, 4, 11⟩
        [(⟨2024, 4, 11⟩, samplePost ⟨2024, 4, 11⟩)] (samplePost ⟨2024, 4, 11⟩)
        (by decide)).1 () rfl).1,
    (c2_publish_cache_semantics (.error "HTTP 500") (.ok "") ⟨2024, 4, 11⟩
        [(⟨2024, 4, 11⟩, samplePost ⟨2024, 4, 11⟩)] (samplePost ⟨2024, 4, 11⟩)
        (by decide)).2 "HTTP 500" rfl⟩

/-- C8: the `DailyPost` struct declared at src/post.rs lines 54-57 carries
only the `content_html` attribute — two declared articles with equal
`content_html` are equal outright, so the type cannot also carry the
`href`, `title`, `author`, `publish_time` and `date` attributes that
`CrawlerImpl::fetch_post` (src/crawler.rs lines 169-177), the controller
cache and the unit tests require. -/
theorem c8_declared_article_only_content (p q : DailyPostDecl)
    (h : p.content_html = q.content_html) : p = q := by
  cases p
  cases q
  simpa using h

/-- C8 (witness): the declared-article collapse at a concrete input. -/
theorem c8_witness : (⟨"<p>a</p>"⟩ : DailyPostDecl) = ⟨"<p>a</p>"⟩ :=
  c8_declared_article_only_content ⟨"<p>a</p>"⟩ ⟨"<p>a</p>"⟩ rfl

/-- C3: a freshness check of `get_access_token` issues a platform request
only when the stored token is within 60 seconds of its deadline
(`deadline = lastRequestedAt + expires_in`), and whenever the current time
is more than 60 seconds before the deadline the stored token string is
returned unchanged with no request. `Instant` monotonicity gives
`lastRequestedAt ≤ now`. -/
theorem c3_token_refresh_policy (last : Nat) (resp : GetAccessTokenResponse)
    (now : Nat) (hmono : last ≤ now) :
    (getAccessTokenStep last resp now = .refreshRequest →
      last + resp.expires_in ≤ now + 60) ∧
      (now + 60 < last + resp.expires_in →
        getAccessTokenStep last resp now = .returnToken resp.access_token) := by
  constructor
  · intro h
    unfold getAccessTokenStep u64CheckedSub at h
    by_cases h60 : 60 ≤ resp.expires_in
    · simp only [if_pos h60] at h
      by_cases hlt : now - last < resp.expires_in - 60
      · simp [hlt] at h
      · omega
    · simp [h60] at h
  · intro h
    have h60 : 60 ≤ resp.expires_in := by omega
    have hlt : now - last < resp.expires_in - 60 := by omega
    unfold getAccessTokenStep u64CheckedSub
    simp [h60, hlt]

/-- C3 (witness): a token issued at time 100 with `expires_in = 7200` is
returned from the cache at time 200 with no request. -/
theorem c3_witness :
    getAccessTokenStep 100 ⟨"cachedToken", 7200⟩ 200 = .returnToken "cachedToken" :=
  (c3_token_refresh_policy 100 ⟨"cachedToken", 7200⟩ 200 (by decide)).2 (by decide)

/-- C9: for a stored response with `expires_in ≥ 60`, the unsigned
subtraction `expires_in - 60` does not underflow, and a refresh request is
issued if and only if at least `expires_in - 60` whole seconds have
elapsed since the stored issue time. -/
theorem c9_freshness_check_no_underflow (last : Nat)
    (resp : GetAccessTokenResponse) (now : Nat) (h60 : 60 ≤ resp.expires_in)
    (hmono : last ≤ now) :
    u64CheckedSub resp.expires_in 60 = some (resp.expires_in - 60) ∧
      (getAccessTokenStep last resp now = .refreshRequest ↔
        resp.expires_in - 60 ≤ now - last) := by
  constructor
  · simp [u64CheckedSub, h60]
  · unfold getAccessTokenStep u64CheckedSub
    simp only [if_pos h60]
    by_cases hlt : now - last < resp.expires_in - 60
    · simp [hlt]
      omega
    · simp [hlt]
      omega

/-- C9 (witness): with `expires_in = 7200`, the subtraction yields 7140
and the token stored at time 100 triggers a refresh at time 7300. -/
theorem c9_witness :
    u64CheckedSub 7200 60 = some 7140 ∧
      getAccessTokenStep 100 ⟨"cachedToken", 7200⟩ 7300 = .refreshRequest :=
  ⟨(c9_freshness_check_no_underflow 100 ⟨"cachedToken", 7200⟩ 7300 (by decide)
      (by decide)).1,
    (c9_freshness_check_no_underflow 100 ⟨"cachedToken", 7200⟩ 7300 (by decide)
      (by decide)).2.mpr (by decide)⟩

/-- C4: an error is resumable iff it is `ReturnCodeError 4008`,
`ReturnCodeError 4009`, or a TCP reset without close handshake; it is
re-identifiable iff it is resumable or a `ReturnCodeError` with code in
`\x7b 7 \x7d ∪ [4006,4009] ∪ [4900,4913]`; and an access-token API error is
classified non-recoverable. -/
theorem c4_error_classification (e : QBotEventErr) :
    (is_resumable e = true ↔
      e = .returnCodeError 4008 ∨ e = .returnCodeError 4009 ∨
        e = .wsError (.protocol .resetWithoutClosingHandshake)) ∧
      (is_reidentifiable e = true ↔
        (is_resumable e = true ∨ ∃ c, e = .returnCodeError c ∧
          (c = 7 ∨ (4006 ≤ c ∧ c ≤ 4009) ∨ (4900 ≤ c ∧ c ≤ 4913)))) ∧
      ∀ sc code msg tid,
        is_recoverable (.accessTokenError (.apiError sc code msg tid)) = false := by
  refine ⟨?_, ?_, fun sc code msg tid => rfl⟩
  · cases e with
    | wsError w =>
      cases w with
      | protocol p => cases p <;> simp [is_resumable]
      | otherWs t => simp [is_resumable]
    | returnCodeError c => simp [is_resumable]
    | webhookServeError t => simp [is_resumable]
    | unexpectedData s => simp [is_resumable]
    | invalidJson r => simp [is_resumable]
    | accessTokenError a => simp [is_resumable]
  · cases e with
    | wsError w =>
      cases w with
      | protocol p => cases p <;> simp [is_reidentifiable, is_resumable]
      | otherWs t => simp [is_reidentifiable, is_resumable]
    | returnCodeError c => simp [is_reidentifiable, is_resumable]
    | webhookServeError t => simp [is_reidentifiable, is_resumable]
    | unexpectedData s => simp [is_reidentifiable, is_resumable]
    | invalidJson r => simp [is_reidentifiable, is_resumable]
    | accessTokenError a => simp [is_reidentifiable, is_resumable]

/-- C4 (witness): the classification evaluated at concrete errors: server
code 4008 is resumable, and an access-token API error is non-recoverable. -/
theorem c4_witness :
    is_resumable (.returnCodeError 4008) = true ∧
      is_recoverable (.accessTokenError (.apiError 400 114514 "msg" "trace")) =
        false :=
  ⟨(c4_error_classification (.returnCodeError 4008)).1.mpr (Or.inl rfl),
    (c4_error_classification (.returnCodeError 4008)).2.2 400 114514 "msg" "trace"⟩

/-! ## Decimal rendering and parsing lemmas (for the date round trip) -/

theorem decDigitsAux_lt_ten :
    ∀ fuel n d, d ∈ decDigitsAux fuel n → d < 10 := by
  intro fuel
  induction fuel with
  | zero => intro n d h; simp [decDigitsAux] at h
  | succ f ih =>
    intro n d h
    by_cases hn : n = 0
    · simp [decDigitsAux, hn] at h
    · simp only [decDigitsAux, if_neg hn, List.mem_cons] at h
      rcases h with h | h
      · subst h
        exact Nat.mod_lt _ (by decide)
      · exact ih _ _ h

theorem decDigitsAux_foldl :
    ∀ fuel n acc, n ≤ fuel →
      ((decDigitsAux fuel n).reverse).foldl (fun a d => a * 10 + d) acc =
        acc * 10 ^ (decDigitsAux fuel n).length + n := by
  intro fuel
  induction fuel with
  | zero =>
    intro n acc h
    interval_cases n
    simp [decDigitsAux]
  | succ f ih =>
    intro n acc h
    by_cases hn : n = 0
    · simp [decDigitsAux, hn]
    · have hdiv : n / 10 ≤ f := by
        have h1 : n / 10 < n := Nat.div_lt_self (Nat.pos_of_ne_zero hn) (by decide)
        omega
      simp only [decDigitsAux, if_neg hn, List.reverse_cons, List.foldl_append,
        List.foldl_cons, List.foldl_nil, List.length_cons]
      rw [ih (n / 10) acc hdiv]
      have hmod : n / 10 * 10 + n % 10 = n := by
        have := Nat.div_add_mod n 10
        omega
      rw [Nat.pow_succ]
      ring_nf
      omega

theorem charDigit_digChar (d : Nat) (h : d < 10) :
    charDigit (digChar d) = some d := by
  interval_cases d <;> decide

theorem digitsVal_map (ds : List Nat) :
    ∀ acc, (∀ d ∈ ds, d < 10) →
      digitsVal (ds.map digChar) acc =
        some (ds.foldl (fun a d => a * 10 + d) acc) := by
  induction ds with
  | nil => intro acc h; rfl
  | cons d t ih =>
    intro acc h
    have hd : d < 10 := h d (List.mem_cons_self d t)
    simp only [List.map_cons, digitsVal, charDigit_digChar d hd, List.foldl_cons]
    exact ih _ fun x hx => h x (List.mem_cons_of_mem d hx)

theorem digitsVal_replicate_zero :
    ∀ k cs, digitsVal (List.replicate k '0' ++ cs) 0 = digitsVal cs 0 := by
  intro k
  induction k with
  | zero => intro cs; rfl
  | succ n ih =>
    intro cs
    simpa [List.replicate_succ, digitsVal, charDigit] using ih cs

theorem digitsVal_natDecChars (n : Nat) :
    digitsVal (natDecChars n) 0 = some n := by
  by_cases hn : n = 0
  · subst hn; rfl
  · unfold natDecChars
    rw [if_neg hn]
    rw [digitsVal_map _ 0
      (fun d hd => decDigitsAux_lt_ten n n d (List.mem_reverse.mp hd))]
    rw [decDigitsAux_foldl n n 0 (Nat.le_refl n)]
    simp [List.length_reverse]

theorem digChar_toNat (d : Nat) (h : d < 10) : (digChar d).toNat = 48 + d := by
  interval_cases d <;> decide

theorem mem_natDecChars_digit (n : Nat) (c : Char) (h : c ∈ natDecChars n) :
    48 ≤ c.toNat ∧ c.toNat ≤ 57 := by
  unfold natDecChars at h
  by_cases hn : n = 0
  · rw [if_pos hn] at h
    simp at h
    subst h
    decide
  · rw [if_neg hn] at h
    simp only [List.mem_map] at h
    obtain ⟨d, hd, rfl⟩ := h
    have hlt : d < 10 := decDigitsAux_lt_ten n n d (List.mem_reverse.mp hd)
    rw [digChar_toNat d hlt]
    omega

theorem mem_padZero_digit (w n : Nat) (c : Char)
    (h : c ∈ padZero w (natDecChars n)) : 48 ≤ c.toNat ∧ c.toNat ≤ 57 := by
  unfold padZero at h
  rcases List.mem_append.mp h with h | h
  · have := List.eq_of_mem_replicate h
    subst this
    decide
  · exact mem_natDecChars_digit n c h

theorem breakDash_no_dash (cs : List Char) (h : ∀ c ∈ cs, c ≠ '-') :
    breakDash cs = (cs, none) := by
  induction cs with
  | nil => rfl
  | cons c t ih =>
    have hc : c ≠ '-' := h c (List.mem_cons_self c t)
    simp only [breakDash, if_neg hc,
      ih fun x hx => h x (List.mem_cons_of_mem c hx)]

theorem breakDash_append (a rest : List Char) (h : ∀ c ∈ a, c ≠ '-') :
    breakDash (a ++ '-' :: rest) = (a, some rest) := by
  induction a with
  | nil => simp [breakDash]
  | cons c t ih =>
    have hc : c ≠ '-' := h c (List.mem_cons_self c t)
    simp only [List.cons_append, breakDash, if_neg hc, List.append_eq,
      ih fun x hx => h x (List.mem_cons_of_mem c hx)]

theorem natDecChars_ne_nil (n : Nat) : natDecChars n ≠ [] := by
  unfold natDecChars
  by_cases hn : n = 0
  · simp [hn]
  · rw [if_neg hn]
    simp only [ne_eq, List.map_eq_nil_iff, List.reverse_eq_nil_iff]
    unfold decDigitsAux
    cases n with
    | zero => exact absurd rfl hn
    | succ m => simp [hn]

theorem parseRustNat_pad (mx w n : Nat) (h : n ≤ mx) :
    parseRustNat mx (padZero w (natDecChars n)) = some n := by
  have hne : padZero w (natDecChars n) ≠ [] := by
    unfold padZero
    simp [natDecChars_ne_nil n]
  obtain ⟨c0, t, hcons⟩ := List.exists_cons_of_ne_nil hne
  have hc0 : 48 ≤ c0.toNat ∧ c0.toNat ≤ 57 :=
    mem_padZero_digit w n c0 (hcons ▸ List.mem_cons_self c0 t)
  have hplus : c0 ≠ '+' := by
    intro hh
    subst hh
    revert hc0
    decide
  unfold parseRustNat
  rw [hcons]
  simp only [List.head?_cons, Option.some.injEq, if_neg hplus, List.isEmpty_cons]
  rw [← hcons]
  have hdv : digitsVal (padZero w (natDecChars n)) 0 = some n := by
    unfold padZero
    rw [digitsVal_replicate_zero, digitsVal_natDecChars]
  simp [hdv, h]

/-- C7: parsing the canonical zero-padded textual form produced by
formatting any date representable in the `DailyPostDate` type
(`u16`/`u8`/`u8` fields) yields the date again. -/
theorem c7_date_roundtrip (d : DailyPostDate) (hy : d.year ≤ 65535)
    (hm : d.month ≤ 255) (hd : d.day ≤ 255) :
    dailyPostDateFromStr (dailyPostDateChars d) = .ok d := by
  have hnd1 : ∀ c ∈ padZero 4 (natDecChars d.year), c ≠ '-' := by
    intro c hc hcd
    have := mem_padZero_digit 4 d.year c hc
    subst hcd
    revert this
    decide
  have hnd2 : ∀ c ∈ padZero 2 (natDecChars d.month), c ≠ '-' := by
    intro c hc hcd
    have := mem_padZero_digit 2 d.month c hc
    subst hcd
    revert this
    decide
  unfold dailyPostDateChars dailyPostDateFromStr
  rw [breakDash_append _ _ hnd1]
  simp only [parseRustNat_pad 65535 4 d.year hy]
  rw [breakDash_append _ _ hnd2]
  simp only [parseRustNat_pad 255 2 d.month hm, parseRustNat_pad 255 2 d.day hd]

/-- C7 (witness): the round trip at the concrete date 2024-04-11. -/
theorem c7_witness :
    dailyPostDateFromStr (dailyPostDateChars ⟨2024, 4, 11⟩) =
      .ok ⟨2024, 4, 11⟩ :=
  c7_date_roundtrip ⟨2024, 4, 11⟩ (by decide) (by decide) (by decide)

/-! ## Lemmas on the cyclic key fill -/

theorem range_map_getD (l : List Nat) :
    ∀ n, n ≤ l.length → (List.range n).map (fun i => l.getD i 0) = l.take n := by
  intro n
  induction n with
  | zero => intro h; simp
  | succ m ih =>
    intro h
    have hm : m < l.length := h
    rw [List.range_succ, List.map_append, ih (Nat.le_of_lt hm)]
    rw [List.take_succ]
    simp [List.getD_eq_getElem?_getD, List.getElem?_eq_getElem hm]

theorem fill_repeating_bytes_eq_cyclic (secret : List Nat) (hs : secret ≠ []) :
    ∀ fuel remaining, remaining ≤ fuel →
      fill_repeating_bytes secret fuel remaining =
        some ((List.range remaining).map fun i =>
          secret.getD (i % secret.length) 0) := by
  have hslen : 0 < secret.length := List.length_pos.mpr hs
  intro fuel
  induction fuel with
  | zero =>
    intro remaining h
    interval_cases remaining
    simp [fill_repeating_bytes]
  | succ f ih =>
    intro remaining h
    by_cases hr : remaining = 0
    · simp [fill_repeating_bytes, hr]
    · have hrpos : 0 < remaining := Nat.pos_of_ne_zero hr
      have hlen : 0 < min remaining secret.length := lt_min hrpos hslen
      have hrec : remaining - min remaining secret.length ≤ f := by omega
      rw [show fill_repeating_bytes secret (f + 1) remaining =
          (if remaining = 0 then some [] else
            match fill_repeating_bytes secret f
                (remaining - min remaining secret.length) with
            | some rest => some (secret.take (min remaining secret.length) ++ rest)
            | none => none) from rfl]
      rw [if_neg hr, ih _ hrec]
      refine congrArg some ?_
      rcases Nat.le_total secret.length remaining with hcase | hcase
      · have hmin : min remaining secret.length = secret.length :=
          Nat.min_eq_right hcase
        rw [hmin]
        have hsplit : remaining = secret.length + (remaining - secret.length) := by
          omega
        conv_rhs => rw [hsplit]
        rw [List.range_add, List.map_append, List.map_map]
        refine congrArg₂ (· ++ ·) ?_ ?_
        · rw [List.map_congr_left fun i hi =>
            congrArg (secret.getD · 0)
              (Nat.mod_eq_of_lt (List.mem_range.mp hi))]
          exact (range_map_getD secret secret.length (Nat.le_refl _)).symm
        · refine List.map_congr_left fun i _ => ?_
          simp [Function.comp, Nat.add_mod_left]
      · have hmin : min remaining secret.length = remaining :=
          Nat.min_eq_left hcase
        rw [hmin]
        simp only [Nat.sub_self, List.range_zero, List.map_nil, List.append_nil]
        rw [List.map_congr_left fun i hi =>
          congrArg (secret.getD · 0)
            (Nat.mod_eq_of_lt (Nat.lt_of_lt_of_le (List.mem_range.mp hi) hcase))]
        exact (range_map_getD secret remaining hcase).symm

theorem fill_repeating_bytes_empty_secret :
    ∀ fuel remaining, 0 < remaining →
      fill_repeating_bytes ([] : List Nat) fuel remaining = none := by
  intro fuel
  induction fuel with
  | zero =>
    intro remaining h
    simp [fill_repeating_bytes, Nat.pos_iff_ne_zero.mp h]
  | succ f ih =>
    intro remaining h
    have hne : remaining ≠ 0 := Nat.pos_iff_ne_zero.mp h
    rw [show fill_repeating_bytes ([] : List Nat) (f + 1) remaining =
        (if remaining = 0 then some [] else
          match fill_repeating_bytes ([] : List Nat) f
              (remaining - min remaining ([] : List Nat).length) with
          | some rest =>
            some (([] : List Nat).take (min remaining ([] : List Nat).length) ++ rest)
          | none => none) from rfl]
    rw [if_neg hne]
    simp only [List.length_nil, Nat.min_zero, Nat.sub_zero]
    rw [ih remaining h]

/-- C10: for every nonempty secret the key-filling loop of
`fill_repeating_bytes` terminates within fuel 32 (indeed within any fuel
at least the remainder) and fills key byte `i` with secret byte
`i mod len(secret)`; each iteration copies `min(remaining, len(secret)) > 0`
bytes, strictly decreasing the unfilled remainder; and with an empty
secret the loop never terminates, within any fuel. -/
theorem c10_fill_repeating_bytes_termination :
    (∀ secret : List Nat, secret ≠ [] → ∀ fuel remaining, remaining ≤ fuel →
        fill_repeating_bytes secret fuel remaining =
          some ((List.range remaining).map fun i =>
            secret.getD (i % secret.length) 0)) ∧
      (∀ (secret : List Nat) (remaining : Nat), secret ≠ [] → 0 < remaining →
        0 < min remaining secret.length ∧
          remaining - min remaining secret.length < remaining) ∧
      ∀ fuel remaining, 0 < remaining →
        fill_repeating_bytes ([] : List Nat) fuel remaining = none := by
  refine ⟨fun secret hs => fill_repeating_bytes_eq_cyclic secret hs, ?_,
    fill_repeating_bytes_empty_secret⟩
  intro secret remaining hs hr
  have hslen : 0 < secret.length := List.length_pos.mpr hs
  constructor
  · exact lt_min hr hslen
  · omega

/-- C10 (witness): the loop evaluated at the 16-byte test secret (the key
is its cyclic doubling) and at the empty secret (no termination with
fuel 32). -/
theorem c10_witness :
    fill_repeating_bytes (strBytes "DG5g3B4j9X2KOErG") 32 32 =
        some ((List.range 32).map fun i =>
          (strBytes "DG5g3B4j9X2KOErG").getD
            (i % (strBytes "DG5g3B4j9X2KOErG").length) 0) ∧
      fill_repeating_bytes ([] : List Nat) 32 32 = none :=
  ⟨c10_fill_repeating_bytes_termination.1 _ (by decide) 32 32 (by decide),
    c10_fill_repeating_bytes_termination.2.2 32 32 (by decide)⟩

/-- C6: the challenge seed expands the secret bytes cyclically
(`K[i] = S[i mod len S]` for every nonempty secret), and the full
challenge computation — Ed25519-sign `event_ts || plain_token` with the
expanded seed and lowercase hex-encode the 64-byte signature — reproduces
the canonical reference vector of the repository's
`test_challenge_generator` unit test. -/
theorem c6_challenge_reference_vector :
    (∀ secret : List Nat, secret ≠ [] →
        challengeGeneratorKey secret =
          some ((List.range 32).map fun i =>
            secret.getD (i % secret.length) 0)) ∧
      calculate_challenge_response (strBytes "DG5g3B4j9X2KOErG")
          (strBytes ("1725442341" ++ "Arq0D5A61EgUu4OxUvOp")) =
        some "87befc99c42c651b3aac0278e71ada338433ae26fcb24307bdc5ad38c1adc2d01bcfcadc0842edac85e85205028a1132afe09280305f13aa6909ffc2d652c706" := by
  constructor
  · intro secret hs
    exact fill_repeating_bytes_eq_cyclic secret hs 32 32 (by decide)
  · decide

/-- C6 (witness): the cyclic seed expansion instantiated at the test
secret. -/
theorem c6_witness :
    challengeGeneratorKey (strBytes "DG5g3B4j9X2KOErG") =
      some ((List.range 32).map fun i =>
        (strBytes "DG5g3B4j9X2KOErG").getD
          (i % (strBytes "DG5g3B4j9X2KOErG").length) 0) :=
  c6_challenge_reference_vector.1 (strBytes "DG5g3B4j9X2KOErG") (by decide)

/-- C5 (counterexample): for a request whose body is not valid JSON for
the event envelope (and whose declared length passes the 64 KiB gate),
the response status is not 400 — `InvalidJson` falls into the catch-all
branch of `call`, which answers 500. -/
theorem c5_counterexample : (webhookCall [] 2 badJsonBody).status ≠ 400 := by
  decide

/-- C5 (amended): for every inbound webhook request within the 64 KiB
content-length gate whose body is not valid JSON for the event envelope,
the response has status 500 with the JSON body
`\x7b error: "Internal server error" \x7d` (the 400 `\x7b error: <reason> \x7d`
answer is reserved for the `UnexpectedData` unknown-opcode error). -/
theorem c5_malformed_json_gives_500 (seed : List Nat) (upper : Nat)
    (b : WebhookBody) (reason : String) (hupper : upper ≤ 1024 * 64)
    (hbad : b.anyParse = .error reason) :
    webhookCall seed upper b =
      ⟨500, errorResponseJson "Internal server error",
        some "application/json; charset=utf-8"⟩ := by
  have hgate : ¬ upper > 1024 * 64 := by omega
  unfold webhookCall handle_request_body deserialize_any_op
  rw [hbad, if_neg hgate]

/-- C5 (witness): the amended statement at the concrete malformed body. -/
theorem c5_witness :
    webhookCall [] 2 badJsonBody =
      ⟨500, errorResponseJson "Internal server error",
        some "application/json; charset=utf-8"⟩ :=
  c5_malformed_json_gives_500 [] 2 badJsonBody
    "expected value at line 1 column 1" (by decide) rfl

end QBot
